import Mathlib

/-
Verification of the ECDSA public-key recovery pipeline in
`src/zkvm/utils/src/k256.rs` (functions `unconstrained_recover_ecdsa`,
`verify_signature`, `decompress_pubkey`, `ecrecover`).

Modelling conventions:
* Byte strings are `List ℕ` (each entry one byte); fixed-size Rust arrays
  such as `[u8; 65]` become length hypotheses on theorems.
* The secp256k1 scalar field (the curve order n) is `ZMod secpN`.
* Rust panics (failed `unwrap`, failed `assert_eq!`) are modelled by the
  value `none` of an `Option` result: a `none` outcome is a process abort,
  never a value returned to the caller.
* The curve group itself is out of scope per the spec (trusted, vetted
  arithmetic library).  Curve points are an arbitrary `AddCommGroup`
  together with a generator, a coordinate-decoding function and an
  x-coordinate reading function; the trusted sp1 primitives
  (`Secp256k1AffinePoint::from_le_bytes`, `multi_scalar_multiplication`,
  `syscall_secp256k1_decompress`) are modelled from the spec over this
  abstract point type.
-/

/-- The secp256k1 curve (group) order n, the modulus of the scalar field. -/
def secpN : ℕ :=
  0xFFFFFFFFFFFFFFFFFFFFFFFFFFFFFFFEBAAEDCE6AF48A03BBFD25E8CD0364141

instance : NeZero secpN := ⟨by decide⟩

/-- Value of a big-endian byte string. -/
def beBytesToNat (l : List ℕ) : ℕ := l.foldl (fun acc b => acc * 256 + b) 0

/-- The `bits2field` helper of the ecdsa crate, instantiated at secp256k1
(32 field bytes): fails when the input is shorter than half the field
size, left-pads shorter inputs, truncates longer ones.  For a 32-byte
input it returns the input unchanged and can never fail. -/
def bits2field (bits : List ℕ) : Option (List ℕ) :=
  if bits.length < 16 then none
  else if bits.length ≤ 32 then some (List.replicate (32 - bits.length) 0 ++ bits)
  else some (bits.take 32)

section Curve

variable {Point : Type} [AddCommGroup Point]

/-- Modelled from the spec: sp1_lib
`Secp256k1AffinePoint::multi_scalar_multiplication`, assumed correct by the
spec (trusted arithmetic library).  It consumes the little-endian bits of
the two scalars and computes u1 * A + u2 * B by double-and-add; its result
accumulator starts empty and stays empty exactly when no bit of either
scalar is set, i.e. when both scalars are zero, in which case it returns
`none` (and the caller in `verify_signature` unwraps, i.e. panics). -/
def multi_scalar_multiplication (u1 u2 : ZMod secpN) (A B : Point) :
    Option Point :=
  if u1 = 0 ∧ u2 = 0 then none else some (u1.val • A + u2.val • B)

/-- The tail of `verify_signature` after the inverse of s has been
resolved to `si`: compute u1 = z * si and u2 = r * si, run the
double-scalar multiplication (unwrap: `none` on its failure), read the
x-coordinate of the result as 32 big-endian bytes (a value below 2^256,
on which the length-based `bits2field` cannot fail), convert it to a
scalar with `Scalar::from_repr` (unwrap: `none`, i.e. panic, when the
value is not below n), and accept iff it equals r. -/
def verify_core (Gen : Point) (xcoord : Point → ℕ) (Q : Point)
    (z r si : ZMod secpN) : Option Bool :=
  match multi_scalar_multiplication (z * si) (r * si) Gen Q with
  | none => none
  | some res =>
    if xcoord res < secpN then
      some (decide (r = ((xcoord res : ℕ) : ZMod secpN)))
    else none

/-- `verify_signature` from `src/zkvm/utils/src/k256.rs`.

`Gen` is the curve generator, `decodePoint x y` models the trusted
`Secp256k1AffinePoint::from_le_bytes` decoding of the two coordinate
values (the source round-trips the coordinate bytes through
`Scalar::to_bytes` plus a byte reversal, which preserves the values once
they passed `Scalar::from_repr`), and `xcoord` models reading the
x-coordinate limbs of a point.

Control flow of the source, in order:
* `Scalar::from_repr(bits2field(&pubkey[1..33]).unwrap()).unwrap()` and
  the same for `pubkey[33..]`: a `bits2field` failure or a coordinate
  value not below n panics (`none`);
* `bits2field(msg_hash)`: on error return `false` (dead for the 32-byte
  array the Rust type fixes), then `Scalar::from_repr(..).unwrap()`:
  digest value not below n panics (`none`);
* supplied inverse: `assert_eq!(s_inv * s, Scalar::ONE)` — a wrong
  supplied inverse panics (`none`); no supplied inverse:
  `s.invert().unwrap()` — s = 0 panics (`none`);
* then the double-scalar multiplication and final comparison
  (`verify_core`). -/
def verify_signature (Gen : Point) (decodePoint : ℕ → ℕ → Point)
    (xcoord : Point → ℕ) (pubkey msg_hash : List ℕ) (r s : ZMod secpN)
    (s_inverse : Option (ZMod secpN)) : Option Bool :=
  match bits2field ((pubkey.drop 1).take 32) with
  | none => none
  | some fx =>
    if beBytesToNat fx < secpN then
      match bits2field (pubkey.drop 33) with
      | none => none
      | some fy =>
        if beBytesToNat fy < secpN then
          match bits2field msg_hash with
          | none => some false
          | some fz =>
            if beBytesToNat fz < secpN then
              match s_inverse with
              | some si =>
                if si * s = 1 then
                  verify_core Gen xcoord
                    (decodePoint (beBytesToNat fx) (beBytesToNat fy))
                    ((beBytesToNat fz : ℕ) : ZMod secpN) r si
                else none
              | none =>
                if s = 0 then none
                else
                  verify_core Gen xcoord
                    (decodePoint (beBytesToNat fx) (beBytesToNat fy))
                    ((beBytesToNat fz : ℕ) : ZMod secpN) r s⁻¹
            else none
        else none
    else none

end Curve

section Curve

variable {Point : Type} [AddCommGroup Point]

/-- The alternative formulation of the verification point from the spec
(section 8, identity check): Rp = s_inv * (z * G + r * Q), a single outer
scalar multiplication, guarded by the same emptiness condition as the
double-scalar multiplication.  Used only to state that the verifier is
invariant to which of the two equivalent formulas computes the point. -/
def verify_core_alt (Gen : Point) (xcoord : Point → ℕ) (Q : Point)
    (z r si : ZMod secpN) : Option Bool :=
  if z * si = 0 ∧ r * si = 0 then none
  else
    let res := si.val • (z.val • Gen + r.val • Q)
    if xcoord res < secpN then
      some (decide (r = ((xcoord res : ℕ) : ZMod secpN)))
    else none

/-- `verify_signature` with the verification point computed by the
alternative formula of the spec (see `verify_core_alt`); identical to
`verify_signature` in every other respect. -/
def verify_signature_alt (Gen : Point) (decodePoint : ℕ → ℕ → Point)
    (xcoord : Point → ℕ) (pubkey msg_hash : List ℕ) (r s : ZMod secpN)
    (s_inverse : Option (ZMod secpN)) : Option Bool :=
  match bits2field ((pubkey.drop 1).take 32) with
  | none => none
  | some fx =>
    if beBytesToNat fx < secpN then
      match bits2field (pubkey.drop 33) with
      | none => none
      | some fy =>
        if beBytesToNat fy < secpN then
          match bits2field msg_hash with
          | none => some false
          | some fz =>
            if beBytesToNat fz < secpN then
              match s_inverse with
              | some si =>
                if si * s = 1 then
                  verify_core_alt Gen xcoord
                    (decodePoint (beBytesToNat fx) (beBytesToNat fy))
                    ((beBytesToNat fz : ℕ) : ZMod secpN) r si
                else none
              | none =>
                if s = 0 then none
                else
                  verify_core_alt Gen xcoord
                    (decodePoint (beBytesToNat fx) (beBytesToNat fy))
                    ((beBytesToNat fz : ℕ) : ZMod secpN) r s⁻¹
            else none
        else none
    else none

end Curve

/-- `decompress_pubkey` from `src/zkvm/utils/src/k256.rs`.

`expand` models the trusted host primitive
`syscall_secp256k1_decompress`: it receives the 64-byte working buffer
(the 32 X bytes copied from the compressed key followed by 32 zero
bytes) and the parity flag, and returns the buffer rewritten as
big-endian X followed by Y.  The source matches on the parity byte
`compressed_key[0]`: 2 means even Y, 3 means odd Y, anything else is the
`invalid compressed key` error; on success the result is the fixed
prefix byte 4 followed by the 64 expanded bytes. -/
def decompress_pubkey (expand : List ℕ → Bool → List ℕ)
    (compressed_key : List ℕ) : Except String (List ℕ) :=
  if compressed_key.headI = 2 then
    Except.ok (4 :: expand (compressed_key.drop 1 ++ List.replicate 32 0) false)
  else if compressed_key.headI = 3 then
    Except.ok (4 :: expand (compressed_key.drop 1 ++ List.replicate 32 0) true)
  else Except.error "invalid compressed key"

/-- `unconstrained_recover_ecdsa` from `src/zkvm/utils/src/k256.rs`,
as a function of the two responses read back from the hint channel
(`io::read_vec()` twice, an external input).  The source converts the
first response with `try_into::<[u8; 33]>().unwrap()` and the second
with `try_into::<[u8; 32]>().unwrap()`: a response of any other length
panics (`none`).  The second response is then converted with
`Scalar::from_repr(bits2field(..).unwrap()).unwrap()`: a value not
below n panics (`none`). -/
def unconstrained_recover_ecdsa (hint1 hint2 : List ℕ) :
    Option (List ℕ × ZMod secpN) :=
  if hint1.length = 33 then
    if hint2.length = 32 then
      match bits2field hint2 with
      | none => none
      | some f =>
        if beBytesToNat f < secpN then
          some (hint1, ((beBytesToNat f : ℕ) : ZMod secpN))
        else none
    else none
  else none

/-- `ecrecover` from `src/zkvm/utils/src/k256.rs`, as a function of the
hint-channel responses and the signature and digest bytes.  Sequence of
the source: `unconstrained_recover_ecdsa`, then `decompress_pubkey` with
the anyhow context `decompress pubkey failed` propagated via `?`, then
`Signature::from_slice(&sig[..64]).unwrap()` — which panics (`none`)
when r or s is zero or not below n — then `verify_signature` with the
supplied inverse; `Ok(pubkey)` on true, the error
`failed to verify signature` on false. -/
def ecrecover {Point : Type} [AddCommGroup Point] (Gen : Point)
    (decodePoint : ℕ → ℕ → Point) (xcoord : Point → ℕ)
    (expand : List ℕ → Bool → List ℕ) (hint1 hint2 sig msg_hash : List ℕ) :
    Option (Except String (List ℕ)) :=
  match unconstrained_recover_ecdsa hint1 hint2 with
  | none => none
  | some (ck, s_inv) =>
    match decompress_pubkey expand ck with
    | Except.error e => some (Except.error ("decompress pubkey failed: " ++ e))
    | Except.ok pubkey =>
      let rv := beBytesToNat (sig.take 32)
      let sv := beBytesToNat ((sig.drop 32).take 32)
      if rv = 0 ∨ secpN ≤ rv ∨ sv = 0 ∨ secpN ≤ sv then none
      else
        match verify_signature Gen decodePoint xcoord pubkey msg_hash
            ((rv : ℕ) : ZMod secpN) ((sv : ℕ) : ZMod secpN) (some s_inv) with
        | none => none
        | some true => some (Except.ok pubkey)
        | some false => some (Except.error "failed to verify signature")

/-- A concrete point group used to instantiate the abstract curve
parameters on concrete inputs: the additive group of `ZMod secpN`
(which, like the real curve group, is killed by n). -/
def toyGen : ZMod secpN := 1

/-- Concrete stand-in for the trusted point decoding. -/
def toyDecode (x y : ℕ) : ZMod secpN := 1

/-- Concrete stand-in for reading the x-coordinate of a point. -/
def toyXcoord (P : ZMod secpN) : ℕ := P.val

/-- Concrete stand-in for the trusted decompression primitive. -/
def toyExpand (buf : List ℕ) (odd : Bool) : List ℕ := List.replicate 64 0

/-- The 32 big-endian bytes of the curve order n itself: the smallest
32-byte digest whose reduction to a scalar fails. -/
def nBytesBE : List ℕ :=
  [0xFF, 0xFF, 0xFF, 0xFF, 0xFF, 0xFF, 0xFF, 0xFF,
   0xFF, 0xFF, 0xFF, 0xFF, 0xFF, 0xFF, 0xFF, 0xFE,
   0xBA, 0xAE, 0xDC, 0xE6, 0xAF, 0x48, 0xA0, 0x3B,
   0xBF, 0xD2, 0x5E, 0x8C, 0xD0, 0x36, 0x41, 0x41]

/-
Theorems.
-/

theorem bits2field_of_len32 (l : List ℕ) (h : l.length = 32) :
    bits2field l = some l := by
  simp [bits2field, h]

theorem nBytesBE_val : beBytesToNat nBytesBE = secpN := by decide

theorem zmod_inv_eq_of_mul_eq_one {s si : ZMod secpN} (h : si * s = 1) :
    s⁻¹ = si :=
  ZMod.inv_eq_of_mul_eq_one secpN s si (by rw [mul_comm]; exact h)

theorem nsmul_mod_of_torsion {Point : Type} [AddCommGroup Point]
    (htor : ∀ P : Point, secpN • P = 0) (k : ℕ) (P : Point) :
    (k % secpN) • P = k • P := by
  conv_rhs => rw [← Nat.div_add_mod k secpN]
  rw [add_nsmul, mul_nsmul, htor, nsmul_zero, zero_add]

theorem smul_pair_identity {Point : Type} [AddCommGroup Point]
    (htor : ∀ P : Point, secpN • P = 0) (Gen Q : Point)
    (z r si : ZMod secpN) :
    (z * si).val • Gen + (r * si).val • Q
      = si.val • (z.val • Gen + r.val • Q) := by
  rw [ZMod.val_mul, ZMod.val_mul, nsmul_mod_of_torsion htor,
    nsmul_mod_of_torsion htor, nsmul_add, ← mul_nsmul, ← mul_nsmul]

theorem verify_core_alt_eq {Point : Type} [AddCommGroup Point]
    (htor : ∀ P : Point, secpN • P = 0) (Gen : Point) (xcoord : Point → ℕ)
    (Q : Point) (z r si : ZMod secpN) :
    verify_core_alt Gen xcoord Q z r si = verify_core Gen xcoord Q z r si := by
  by_cases h : z * si = 0 ∧ r * si = 0
  · simp [verify_core, verify_core_alt, multi_scalar_multiplication, h]
  · simp [verify_core, verify_core_alt, multi_scalar_multiplication, h,
      smul_pair_identity htor]

theorem verify_signature_alt_eq {Point : Type} [AddCommGroup Point]
    (htor : ∀ P : Point, secpN • P = 0) (Gen : Point)
    (decodePoint : ℕ → ℕ → Point) (xcoord : Point → ℕ)
    (pubkey msg_hash : List ℕ) (r s si : ZMod secpN) :
    verify_signature_alt Gen decodePoint xcoord pubkey msg_hash r s (some si)
      = verify_signature Gen decodePoint xcoord pubkey msg_hash r s (some si) := by
  rw [verify_signature, verify_signature_alt]
  cases bits2field ((pubkey.drop 1).take 32) with
  | none => rfl
  | some fx =>
    by_cases h1 : beBytesToNat fx < secpN
    · simp only [if_pos h1]
      cases bits2field (pubkey.drop 33) with
      | none => rfl
      | some fy =>
        by_cases h2 : beBytesToNat fy < secpN
        · simp only [if_pos h2]
          cases bits2field msg_hash with
          | none => rfl
          | some fz =>
            by_cases h3 : beBytesToNat fz < secpN
            · simp only [if_pos h3]
              by_cases h4 : si * s = 1
              · simp only [if_pos h4]
                exact verify_core_alt_eq htor Gen xcoord _ _ r si
              · simp only [if_neg h4]
            · simp only [if_neg h3]
        · simp only [if_neg h2]
    · simp only [if_neg h1]


/-- Claim C1: for a 65-byte uncompressed candidate public key, a 32-byte
digest, a signature (r, s) and an optional precomputed inverse of s,
whenever `verify_signature` returns a boolean it returns true if and
only if r equals the x-coordinate of the point
Rp = u1 * G + u2 * Q reduced mod n, with u1 = z * s⁻¹ mod n,
u2 = r * s⁻¹ mod n, z the digest reduced to a scalar and Q the affine
point decoded from the candidate key. -/
theorem verify_signature_accept_iff {Point : Type} [AddCommGroup Point]
    (Gen : Point) (decodePoint : ℕ → ℕ → Point) (xcoord : Point → ℕ)
    (pubkey msg_hash : List ℕ) (r s : ZMod secpN)
    (s_inverse : Option (ZMod secpN)) (b : Bool)
    (hpk : pubkey.length = 65) (hmsg : msg_hash.length = 32)
    (hb : verify_signature Gen decodePoint xcoord pubkey msg_hash r s
        s_inverse = some b) :
    b = true ↔
      r = (((xcoord
        (((beBytesToNat msg_hash : ZMod secpN) * s⁻¹).val • Gen
          + (r * s⁻¹).val •
            decodePoint (beBytesToNat ((pubkey.drop 1).take 32))
              (beBytesToNat (pubkey.drop 33)))) : ℕ) : ZMod secpN) := by
  have h1 : bits2field ((pubkey.drop 1).take 32) = some ((pubkey.drop 1).take 32) :=
    bits2field_of_len32 _ (by simp [hpk])
  have h2 : bits2field (pubkey.drop 33) = some (pubkey.drop 33) :=
    bits2field_of_len32 _ (by simp [hpk])
  have h3 : bits2field msg_hash = some msg_hash := bits2field_of_len32 _ hmsg
  rw [verify_signature, h1, h2, h3] at hb
  simp only [] at hb
  split at hb
  case isFalse => exact absurd hb (by simp)
  case isTrue hpx =>
    split at hb
    case isFalse => exact absurd hb (by simp)
    case isTrue hpy =>
      split at hb
      case isFalse => exact absurd hb (by simp)
      case isTrue hz =>
        cases s_inverse with
        | some si =>
          simp only [] at hb
          split at hb
          case isFalse => exact absurd hb (by simp)
          case isTrue hsi =>
            have hinv : s⁻¹ = si := zmod_inv_eq_of_mul_eq_one hsi
            rw [hinv]
            rw [verify_core, multi_scalar_multiplication] at hb
            split at hb
            case h_1 => exact absurd hb (by simp)
            case h_2 res heq =>
              split at heq
              case isTrue => exact absurd heq (by simp)
              case isFalse =>
                have hres := Option.some.inj heq
                subst hres
                split at hb
                case isFalse => exact absurd hb (by simp)
                case isTrue hx =>
                  have hbd := Option.some.inj hb
                  rw [← hbd]
                  simp [decide_eq_true_eq]
        | none =>
          simp only [] at hb
          split at hb
          case isTrue => exact absurd hb (by simp)
          case isFalse hs0 =>
            rw [verify_core, multi_scalar_multiplication] at hb
            split at hb
            case h_1 => exact absurd hb (by simp)
            case h_2 res heq =>
              split at heq
              case isTrue => exact absurd heq (by simp)
              case isFalse =>
                have hres := Option.some.inj heq
                subst hres
                split at hb
                case isFalse => exact absurd hb (by simp)
                case isTrue hx =>
                  have hbd := Option.some.inj hb
                  rw [← hbd]
                  simp [decide_eq_true_eq]

/-- Claim C1 witness: a concrete accepted run. -/
theorem verify_signature_accept_iff_witness :
    (true = true) ↔
      (1 : ZMod secpN) =
        ((toyXcoord
            (((beBytesToNat (List.replicate 32 0) : ZMod secpN) *
                (1 : ZMod secpN)⁻¹).val • toyGen +
              ((1 : ZMod secpN) * (1 : ZMod secpN)⁻¹).val •
                toyDecode
                  (beBytesToNat (((4 :: List.replicate 64 0).drop 1).take 32))
                  (beBytesToNat ((4 :: List.replicate 64 0).drop 33))) : ℕ) :
          ZMod secpN) :=
  verify_signature_accept_iff toyGen toyDecode toyXcoord
    (4 :: List.replicate 64 0) (List.replicate 32 0) 1 1 (some 1) true
    (by decide) (by decide) (by decide)

/-- Claim C3: a supplied inverse i with i * s not congruent to 1 mod n
never makes `verify_signature` return true (in the code it panics on the
assert before any curve arithmetic, modelled as `none`). -/
theorem verify_signature_wrong_inverse_never_true {Point : Type}
    [AddCommGroup Point] (Gen : Point) (decodePoint : ℕ → ℕ → Point)
    (xcoord : Point → ℕ) (pubkey msg_hash : List ℕ) (r s si : ZMod secpN)
    (h : si * s ≠ 1) :
    verify_signature Gen decodePoint xcoord pubkey msg_hash r s (some si)
      ≠ some true := by
  intro hc
  rw [verify_signature] at hc
  split at hc
  · exact Option.noConfusion hc
  · split at hc
    · split at hc
      · exact Option.noConfusion hc
      · split at hc
        · split at hc
          · exact Bool.noConfusion (Option.some.inj hc)
          · split at hc
            · simp only [] at hc
              split at hc
              · exact absurd (by assumption) h
              · exact Option.noConfusion hc
            · exact Option.noConfusion hc
        · exact Option.noConfusion hc
    · exact Option.noConfusion hc

/-- Claim C3 witness. -/
theorem verify_signature_wrong_inverse_never_true_witness :
    verify_signature toyGen toyDecode toyXcoord (4 :: List.replicate 64 0)
      (List.replicate 32 0) 1 1 (some 2) ≠ some true :=
  verify_signature_wrong_inverse_never_true toyGen toyDecode toyXcoord
    (4 :: List.replicate 64 0) (List.replicate 32 0) 1 1 2 (by decide)

/-- Claim C10: on a 65-byte candidate public key whose X or Y
coordinate, read big-endian, is at least the curve order n,
`verify_signature` panics on the unwrapped `Scalar::from_repr`
(modelled as `none`) instead of returning a boolean. -/
theorem verify_signature_large_coordinate_aborts {Point : Type}
    [AddCommGroup Point] (Gen : Point) (decodePoint : ℕ → ℕ → Point)
    (xcoord : Point → ℕ) (pubkey msg_hash : List ℕ) (r s : ZMod secpN)
    (s_inverse : Option (ZMod secpN)) (hpk : pubkey.length = 65)
    (hbad : secpN ≤ beBytesToNat ((pubkey.drop 1).take 32)
      ∨ secpN ≤ beBytesToNat (pubkey.drop 33)) :
    verify_signature Gen decodePoint xcoord pubkey msg_hash r s s_inverse
      = none := by
  have h1 : bits2field ((pubkey.drop 1).take 32) = some ((pubkey.drop 1).take 32) :=
    bits2field_of_len32 _ (by simp [hpk])
  have h2 : bits2field (pubkey.drop 33) = some (pubkey.drop 33) :=
    bits2field_of_len32 _ (by simp [hpk])
  rw [verify_signature, h1, h2]
  simp only []
  rcases hbad with hb | hb
  · rw [if_neg (Nat.not_lt.mpr hb)]
  · rw [if_neg (Nat.not_lt.mpr hb)]
    split <;> rfl

/-- Claim C10 witness: a candidate key whose X coordinate is exactly n. -/
theorem verify_signature_large_coordinate_aborts_witness :
    verify_signature toyGen toyDecode toyXcoord
      (4 :: (nBytesBE ++ List.replicate 32 0)) (List.replicate 32 0)
      1 1 none = none :=
  verify_signature_large_coordinate_aborts toyGen toyDecode toyXcoord
    (4 :: (nBytesBE ++ List.replicate 32 0)) (List.replicate 32 0) 1 1 none
    (by decide) (Or.inl (by decide))

/-- Claim C2 evaluation: a well-formed candidate key and digest together
with a supplied inverse 2 for s = 1 (2 * 1 is not 1 mod n) drive
`verify_signature` into the `assert_eq!(s_inv * s, Scalar::ONE)`, which
panics — the run aborts (`none`) instead of returning a failing result
to the caller. -/
theorem verify_signature_wrong_inverse_concrete_abort :
    verify_signature toyGen toyDecode toyXcoord (4 :: List.replicate 64 0)
      (List.replicate 32 0) 1 1 (some 2) = none := by decide

/-- Claim C4 evaluation: when the first value read back from the hint
channel has 32 bytes instead of 33, `unconstrained_recover_ecdsa` panics
on `try_into::<[u8; 33]>().unwrap()` — the run aborts (`none`) instead
of surfacing a recoverable malformed-hint error. -/
theorem unconstrained_recover_bad_length_abort :
    unconstrained_recover_ecdsa (List.replicate 32 0) (List.replicate 32 0)
      = none := by decide

/-- Claim C7 evaluation: for the 32-byte digest whose big-endian value
is exactly the curve order n, reducing the digest to a scalar fails, and
`verify_signature` panics on the unwrapped `Scalar::from_repr` (`none`)
instead of returning false; the `bits2field` error branch that does
return false cannot fire on a 32-byte input. -/
theorem verify_signature_digest_reduction_abort :
    beBytesToNat nBytesBE = secpN ∧
    bits2field nBytesBE = some nBytesBE ∧
    verify_signature toyGen toyDecode toyXcoord (4 :: List.replicate 64 0)
      nBytesBE 1 1 (some 1) = none := by
  refine ⟨nBytesBE_val, by decide, by decide⟩

/-- Claim C6: `decompress_pubkey` returns the invalid-encoding error iff
the parity byte is neither 2 nor 3; when it is 2 or 3 (and the trusted
expansion primitive returns its 64-byte buffer) the result is a 65-byte
key whose first byte is 4. -/
theorem decompress_pubkey_spec (expand : List ℕ → Bool → List ℕ)
    (ck : List ℕ) (hck : ck.length = 33) :
    ((∃ e, decompress_pubkey expand ck = Except.error e)
      ↔ (ck.headI ≠ 2 ∧ ck.headI ≠ 3))
    ∧ ((∀ buf odd, (expand buf odd).length = 64) →
        ∀ pk, decompress_pubkey expand ck = Except.ok pk →
          pk.headI = 4 ∧ pk.length = 65) := by
  constructor
  · rw [decompress_pubkey]
    by_cases hc2 : ck.headI = 2
    · simp [hc2]
    · by_cases hc3 : ck.headI = 3
      · simp [hc2, hc3]
      · simp [hc2, hc3]
  · intro hexp pk hpk
    rw [decompress_pubkey] at hpk
    split_ifs at hpk <;> simp only [Except.ok.injEq] at hpk <;>
      rw [← hpk] <;> simp [hexp]

/-- Claim C6 witness: even-parity byte 2, concrete expansion primitive. -/
theorem decompress_pubkey_spec_witness :
    (4 :: List.replicate 64 0).headI = 4 ∧
      (4 :: List.replicate 64 0).length = 65 :=
  (decompress_pubkey_spec toyExpand (2 :: List.replicate 32 0)
    (by decide)).2 (fun _ _ => rfl) (4 :: List.replicate 64 0) rfl

/-- Claim C8: for any n-torsion point group (the secp256k1 group has
prime order n) and any supplied inverse si of s, the double-scalar
point u1 * G + u2 * Q with u1 = z * si and u2 = r * si equals
si * (z * G + r * Q), and the verifier returns the same result
whichever of the two formulas computes the point. -/
theorem verify_formula_invariance {Point : Type} [AddCommGroup Point]
    (Gen : Point) (decodePoint : ℕ → ℕ → Point) (xcoord : Point → ℕ)
    (Q : Point) (z r s si : ZMod secpN)
    (htor : ∀ P : Point, secpN • P = 0) (hsi : si * s = 1) :
    ((z * si).val • Gen + (r * si).val • Q
        = si.val • (z.val • Gen + r.val • Q))
    ∧ ∀ pubkey msg_hash : List ℕ,
        verify_signature_alt Gen decodePoint xcoord pubkey msg_hash r s
            (some si)
          = verify_signature Gen decodePoint xcoord pubkey msg_hash r s
              (some si) :=
  ⟨smul_pair_identity htor Gen Q z r si,
   fun pubkey msg_hash =>
     verify_signature_alt_eq htor Gen decodePoint xcoord pubkey msg_hash r s si⟩

/-- Claim C8 witness: the point identity in the n-torsion group
`ZMod secpN` at concrete scalars. -/
theorem verify_formula_invariance_witness :
    ((2 : ZMod secpN) * 1).val • toyGen
        + ((3 : ZMod secpN) * 1).val • (1 : ZMod secpN)
      = (1 : ZMod secpN).val •
          ((2 : ZMod secpN).val • toyGen
            + (3 : ZMod secpN).val • (1 : ZMod secpN)) :=
  (verify_formula_invariance toyGen toyDecode toyXcoord 1 2 3 1 1
    (fun P => by rw [nsmul_eq_mul, ZMod.natCast_self, zero_mul])
    (by decide)).1

/-- Claim C5: given a successful hint read, `ecrecover` propagates a
decompression failure as an error with the decompress context, and
otherwise (when the signature scalars parse) returns the uncompressed
key exactly when the verifier, invoked with the supplied inverse,
returns true, and the verification-failed error exactly when the
verifier returns false. -/
theorem ecrecover_orchestration {Point : Type} [AddCommGroup Point]
    (Gen : Point) (decodePoint : ℕ → ℕ → Point) (xcoord : Point → ℕ)
    (expand : List ℕ → Bool → List ℕ)
    (hint1 hint2 sig msg_hash ck : List ℕ) (sinv : ZMod secpN)
    (hrec : unconstrained_recover_ecdsa hint1 hint2 = some (ck, sinv)) :
    (∀ e, decompress_pubkey expand ck = Except.error e →
        ecrecover Gen decodePoint xcoord expand hint1 hint2 sig msg_hash
          = some (Except.error ("decompress pubkey failed: " ++ e)))
    ∧ (∀ pk, decompress_pubkey expand ck = Except.ok pk →
        ¬(beBytesToNat (sig.take 32) = 0 ∨ secpN ≤ beBytesToNat (sig.take 32)
          ∨ beBytesToNat ((sig.drop 32).take 32) = 0
          ∨ secpN ≤ beBytesToNat ((sig.drop 32).take 32)) →
        ((ecrecover Gen decodePoint xcoord expand hint1 hint2 sig msg_hash
            = some (Except.ok pk)
          ↔ verify_signature Gen decodePoint xcoord pk msg_hash
              ((beBytesToNat (sig.take 32) : ℕ) : ZMod secpN)
              ((beBytesToNat ((sig.drop 32).take 32) : ℕ) : ZMod secpN)
              (some sinv) = some true)
        ∧ (ecrecover Gen decodePoint xcoord expand hint1 hint2 sig msg_hash
            = some (Except.error "failed to verify signature")
          ↔ verify_signature Gen decodePoint xcoord pk msg_hash
              ((beBytesToNat (sig.take 32) : ℕ) : ZMod secpN)
              ((beBytesToNat ((sig.drop 32).take 32) : ℕ) : ZMod secpN)
              (some sinv) = some false))) := by
  constructor
  · intro e he
    rw [ecrecover, hrec]
    simp only []
    rw [he]
  · intro pk hpk hok
    rw [ecrecover, hrec]
    simp only []
    rw [hpk]
    simp only []
    rw [if_neg hok]
    cases hv : verify_signature Gen decodePoint xcoord pk msg_hash
        ((beBytesToNat (sig.take 32) : ℕ) : ZMod secpN)
        ((beBytesToNat ((sig.drop 32).take 32) : ℕ) : ZMod secpN)
        (some sinv) with
    | none => simp
    | some b => cases b <;> simp

/-- Claim C5 witness: a concrete run in which the hint parses, the key
decompresses and the verifier accepts. -/
theorem ecrecover_orchestration_witness :
    ecrecover toyGen toyDecode toyXcoord toyExpand (2 :: List.replicate 32 0)
        (List.replicate 31 0 ++ [1])
        ((List.replicate 31 0 ++ [1]) ++ ((List.replicate 31 0 ++ [1]) ++ [0]))
        (List.replicate 32 0)
      = some (Except.ok (4 :: List.replicate 64 0))
    ↔ verify_signature toyGen toyDecode toyXcoord (4 :: List.replicate 64 0)
        (List.replicate 32 0)
        ((beBytesToNat
            (((List.replicate 31 0 ++ [1]) ++
              ((List.replicate 31 0 ++ [1]) ++ [0])).take 32) : ℕ) : ZMod secpN)
        ((beBytesToNat
            ((((List.replicate 31 0 ++ [1]) ++
              ((List.replicate 31 0 ++ [1]) ++ [0])).drop 32).take 32) : ℕ) : ZMod secpN)
        (some 1) = some true :=
  ((ecrecover_orchestration toyGen toyDecode toyXcoord toyExpand
      (2 :: List.replicate 32 0) (List.replicate 31 0 ++ [1])
      ((List.replicate 31 0 ++ [1]) ++ ((List.replicate 31 0 ++ [1]) ++ [0]))
      (List.replicate 32 0) (2 :: List.replicate 32 0) 1
      (by decide)).2 (4 :: List.replicate 64 0) rfl (by decide)).1

/-- Claim C9: a 65-byte signature whose r or s component, read
big-endian from the first 64 bytes, is zero or at least the curve order
n makes `ecrecover` panic on the unwrapped `Signature::from_slice`
(modelled as `none`) rather than return an error value, whenever the
preceding hint read and decompression steps go through. -/
theorem ecrecover_invalid_signature_scalars_abort {Point : Type}
    [AddCommGroup Point] (Gen : Point) (decodePoint : ℕ → ℕ → Point)
    (xcoord : Point → ℕ) (expand : List ℕ → Bool → List ℕ)
    (hint1 hint2 sig msg_hash ck pk : List ℕ) (sinv : ZMod secpN)
    (hrec : unconstrained_recover_ecdsa hint1 hint2 = some (ck, sinv))
    (hdec : decompress_pubkey expand ck = Except.ok pk)
    (hbad : beBytesToNat (sig.take 32) = 0 ∨ secpN ≤ beBytesToNat (sig.take 32)
      ∨ beBytesToNat ((sig.drop 32).take 32) = 0
      ∨ secpN ≤ beBytesToNat ((sig.drop 32).take 32)) :
    ecrecover Gen decodePoint xcoord expand hint1 hint2 sig msg_hash
      = none := by
  rw [ecrecover, hrec]
  simp only []
  rw [hdec]
  simp only []
  rw [if_pos hbad]

/-- Claim C9 witness: the all-zero signature (r = 0). -/
theorem ecrecover_invalid_signature_scalars_abort_witness :
    ecrecover toyGen toyDecode toyXcoord toyExpand (2 :: List.replicate 32 0)
      (List.replicate 31 0 ++ [1]) (List.replicate 65 0)
      (List.replicate 32 0) = none :=
  ecrecover_invalid_signature_scalars_abort toyGen toyDecode toyXcoord
    toyExpand (2 :: List.replicate 32 0) (List.replicate 31 0 ++ [1])
    (List.replicate 65 0) (List.replicate 32 0) (2 :: List.replicate 32 0)
    (4 :: List.replicate 64 0) 1 (by decide) rfl (Or.inl (by decide))
